import Mathlib

/-!
Verification of the chunked batch submission and resume protocol of the
llm_sentiment repository, against a shallow embedding of its Python sources:

* `src/central_bank_sentiment/batch_processor.py` (`BatchProcessor`:
  `create_chunked_batch_files`, `process_all_chunks`, `monitor_batch`,
  `_save_batch_info`, `parse_results`)
* `src/split_batch.py` (`split_batch_file`)
* `src/src/batch_processor.py` (`wait_for_completion`, `parse_results`)
* `src/src/output_validator.py` (`OutputValidator.validate_single_output`)
* `src/central_bank_sentiment/02_make_indices.py` (`resubmit_failed_batches`)
* `src/phase2_batch_submit.py` (`submit_all_chunks`)

Machine integers do not overflow in any modelled code path, so Python ints
are modelled as `Nat`/`ℚ`; fallible code returns `Option`/`Except`; the
stateful orchestrator is modelled as explicit state passing that also emits
an event trace (ledger mutation / ledger save / remote call).
-/

namespace LlmSentiment

/-! ## Token estimation and the chunk planner

Embeds `estimate_tokens` (`src/src/utils.py` line 38 and
`src/central_bank_sentiment/utils.py` line 166, both `len(text) // 4`) and
the greedy token-budget chunking loop shared verbatim by
`BatchProcessor.create_chunked_batch_files`
(`src/central_bank_sentiment/batch_processor.py` lines 127-146) and
`split_batch_file` (`src/split_batch.py` lines 45-66). -/

/-- Embeds `estimate_tokens(text)`: `len(text) // 4`. -/
def estimate_tokens (text : String) : Nat :=
  text.length / 4

/-- One encoded batch request (`create_batch_request` output), reduced to the
fields the planner and merger observe: the caller-assigned correlation id
(`custom_id`) and the serialized body. -/
structure BatchRequest where
  custom_id : String
  body : String
deriving DecidableEq, Repr

/-- One element of the `all_requests` list built in
`create_chunked_batch_files` lines 109-125: the request together with its
estimated token cost (`{'request': request, 'tokens': request_tokens}`). -/
structure ReqInfo where
  request : BatchRequest
  tokens : Nat
deriving DecidableEq, Repr

/-- Sum of the `tokens` fields of a chunk, as in
`sum(req['tokens'] for req in chunk)`. -/
def chunk_tokens_sum (chunk : List ReqInfo) : Nat :=
  (chunk.map (·.tokens)).sum

/-- One iteration of the chunking `for` loop (lines 132-142 of
`create_chunked_batch_files`, lines 50-62 of `split_batch_file`): state is
`(chunks, current_chunk, current_tokens)`. -/
def chunk_step (max_tokens : Nat)
    (acc : List (List ReqInfo) × List ReqInfo × Nat) (req_info : ReqInfo) :
    List (List ReqInfo) × List ReqInfo × Nat :=
  if acc.2.2 + req_info.tokens > max_tokens ∧ acc.2.1 ≠ [] then
    (acc.1 ++ [acc.2.1], [req_info], req_info.tokens)
  else
    (acc.1, acc.2.1 ++ [req_info], acc.2.2 + req_info.tokens)

/-- The full chunking loop, including the final `if current_chunk:
chunks.append(current_chunk)` (lines 144-146 resp. 64-66). -/
def split_into_chunks (max_tokens : Nat) (all_requests : List ReqInfo) :
    List (List ReqInfo) :=
  let s := all_requests.foldl (chunk_step max_tokens) ([], [], 0)
  if s.2.1 = [] then s.1 else s.1 ++ [s.2.1]

/-- Correlation ids of all chunks, in chunk order, concatenated. -/
def chunk_ids (chunks : List (List ReqInfo)) : List String :=
  (chunks.map (fun c => c.map (fun r => r.request.custom_id))).flatten

/-- The invariant carried by the fold state: every closed chunk is non-empty
and within budget unless it is an oversized singleton, the running token
counter equals the sum of the current chunk, and the current chunk (when
non-empty) also satisfies the budget property. -/
def ChunkInv (max_tokens : Nat)
    (acc : List (List ReqInfo) × List ReqInfo × Nat) : Prop :=
  (∀ c ∈ acc.1, c ≠ [] ∧
      (chunk_tokens_sum c ≤ max_tokens ∨ ∃ r, c = [r] ∧ r.tokens > max_tokens)) ∧
  acc.2.2 = chunk_tokens_sum acc.2.1 ∧
  (acc.2.1 ≠ [] →
      (chunk_tokens_sum acc.2.1 ≤ max_tokens ∨
        ∃ r, acc.2.1 = [r] ∧ r.tokens > max_tokens))

lemma chunk_step_inv (max_tokens : Nat)
    (acc : List (List ReqInfo) × List ReqInfo × Nat) (r : ReqInfo)
    (h : ChunkInv max_tokens acc) :
    ChunkInv max_tokens (chunk_step max_tokens acc r) := by
  obtain ⟨hclosed, hsum, hcur⟩ := h
  obtain ⟨chunks, current_chunk, current_tokens⟩ := acc
  simp only [ChunkInv] at hclosed hsum hcur ⊢
  unfold chunk_step
  by_cases hcond : current_tokens + r.tokens > max_tokens ∧ current_chunk ≠ []
  · rw [if_pos hcond]
    refine ⟨?_, ?_, ?_⟩
    · intro c hc
      rcases List.mem_append.mp hc with hc | hc
      · exact hclosed c hc
      · simp only [List.mem_singleton] at hc
        subst hc
        exact ⟨hcond.2, hcur hcond.2⟩
    · simp [chunk_tokens_sum]
    · intro _
      rcases le_or_lt r.tokens max_tokens with hr | hr
      · left; simpa [chunk_tokens_sum] using hr
      · right; exact ⟨r, rfl, hr⟩
  · rw [if_neg hcond]
    dsimp only
    have hsum' : chunk_tokens_sum (current_chunk ++ [r]) =
        chunk_tokens_sum current_chunk + r.tokens := by
      simp [chunk_tokens_sum]
    refine ⟨hclosed, ?_, ?_⟩
    · omega
    · intro _
      by_cases hemp : current_chunk = []
      · subst hemp
        rcases le_or_lt r.tokens max_tokens with hr | hr
        · left
          simpa [chunk_tokens_sum] using hr
        · right
          exact ⟨r, by simp, hr⟩
      · have hle : ¬ current_tokens + r.tokens > max_tokens := by
          intro hgt; exact hcond ⟨hgt, hemp⟩
        left
        omega

lemma chunk_fold_inv (max_tokens : Nat) (reqs : List ReqInfo)
    (acc : List (List ReqInfo) × List ReqInfo × Nat)
    (h : ChunkInv max_tokens acc) :
    ChunkInv max_tokens (reqs.foldl (chunk_step max_tokens) acc) := by
  induction reqs generalizing acc with
  | nil => exact h
  | cons r rest ih =>
      exact ih _ (chunk_step_inv max_tokens acc r h)

/-- Fold state content: the processed prefix is exactly the concatenation of
all closed chunks followed by the current chunk. -/
lemma chunk_fold_join (max_tokens : Nat) (reqs : List ReqInfo)
    (acc : List (List ReqInfo) × List ReqInfo × Nat) :
    (let s := reqs.foldl (chunk_step max_tokens) acc
     s.1.flatten ++ s.2.1) = acc.1.flatten ++ acc.2.1 ++ reqs := by
  induction reqs generalizing acc with
  | nil => simp
  | cons r rest ih =>
      obtain ⟨chunks, current_chunk, current_tokens⟩ := acc
      simp only [List.foldl_cons]
      rw [ih]
      unfold chunk_step
      by_cases hcond : current_tokens + r.tokens > max_tokens ∧ current_chunk ≠ []
      · rw [if_pos hcond]; simp
      · rw [if_neg hcond]; simp

lemma split_into_chunks_flatten (max_tokens : Nat) (reqs : List ReqInfo) :
    (split_into_chunks max_tokens reqs).flatten = reqs := by
  have h := chunk_fold_join max_tokens reqs ([], [], 0)
  simp only [List.flatten_nil, List.nil_append] at h
  unfold split_into_chunks
  set s := reqs.foldl (chunk_step max_tokens) ([], [], 0) with hs
  by_cases hemp : s.2.1 = []
  · rw [if_pos hemp]
    rw [hemp, List.append_nil] at h
    exact h
  · rw [if_neg hemp]
    simpa using h

/-- C3: every chunk the planner emits is non-empty and its estimated token
sum is within the ceiling, except a single-record chunk whose one record
alone exceeds the ceiling
(`create_chunked_batch_files` lines 127-146 / `split_batch_file` lines
45-66). -/
theorem chunk_budget_invariant (max_tokens : Nat) (reqs : List ReqInfo)
    (hpos : 0 < max_tokens) :
    ∀ c ∈ split_into_chunks max_tokens reqs,
      c ≠ [] ∧
        (chunk_tokens_sum c ≤ max_tokens ∨
          ∃ r, c = [r] ∧ r.tokens > max_tokens) := by
  have h := chunk_fold_inv max_tokens reqs ([], [], 0)
    (by refine ⟨by simp, by simp [chunk_tokens_sum], by simp⟩)
  obtain ⟨hclosed, hsum, hcur⟩ := h
  intro c hc
  unfold split_into_chunks at hc
  set s := reqs.foldl (chunk_step max_tokens) ([], [], 0) with hs
  by_cases hemp : s.2.1 = []
  · rw [if_pos hemp] at hc
    exact hclosed c hc
  · rw [if_neg hemp] at hc
    rcases List.mem_append.mp hc with h | h
    · exact hclosed c h
    · simp only [List.mem_singleton] at h
      subst h
      exact ⟨hemp, hcur hemp⟩

/-- Witness for `chunk_budget_invariant` at a concrete input: ceiling 10,
requests of 6, 6 and 25 estimated tokens (the last one oversized). -/
theorem chunk_budget_invariant_witness :
    0 < 10 ∧
      ∀ c ∈ split_into_chunks 10
          [⟨⟨"s1", "a"⟩, 6⟩, ⟨⟨"s2", "b"⟩, 6⟩, ⟨⟨"s3", "c"⟩, 25⟩],
        c ≠ [] ∧
          (chunk_tokens_sum c ≤ 10 ∨ ∃ r, c = [r] ∧ r.tokens > 10) :=
  ⟨by decide,
    chunk_budget_invariant 10
      [⟨⟨"s1", "a"⟩, 6⟩, ⟨⟨"s2", "b"⟩, 6⟩, ⟨⟨"s3", "c"⟩, 25⟩] (by decide)⟩

/-- C4: chunk planning is a deterministic function of the input sequence and
the ceiling, the concatenation of all chunks restores exactly the original
request sequence (so every correlation id appears exactly once, in the
original order), and an empty input yields zero chunks. -/
theorem chunk_planning_deterministic_complete (max_tokens max_tokens' : Nat)
    (reqs reqs' : List ReqInfo) :
    (max_tokens = max_tokens' → reqs = reqs' →
        split_into_chunks max_tokens reqs = split_into_chunks max_tokens' reqs') ∧
      (split_into_chunks max_tokens reqs).flatten = reqs ∧
      chunk_ids (split_into_chunks max_tokens reqs) =
        reqs.map (fun r => r.request.custom_id) ∧
      split_into_chunks max_tokens [] = [] := by
  refine ⟨?_, split_into_chunks_flatten max_tokens reqs, ?_, ?_⟩
  · intro h1 h2
    rw [h1, h2]
  · unfold chunk_ids
    rw [← List.map_flatten, split_into_chunks_flatten]
  · simp [split_into_chunks]

/-- Witness for `chunk_planning_deterministic_complete` (its first conjunct
carries hypotheses): applied at a concrete two-request input. -/
theorem chunk_planning_deterministic_complete_witness :
    split_into_chunks 8 [⟨⟨"s1", "a"⟩, 5⟩, ⟨⟨"s2", "b"⟩, 5⟩] =
        split_into_chunks 8 [⟨⟨"s1", "a"⟩, 5⟩, ⟨⟨"s2", "b"⟩, 5⟩] ∧
      (split_into_chunks 8 [⟨⟨"s1", "a"⟩, 5⟩, ⟨⟨"s2", "b"⟩, 5⟩]).flatten =
        [⟨⟨"s1", "a"⟩, 5⟩, ⟨⟨"s2", "b"⟩, 5⟩] :=
  ⟨(chunk_planning_deterministic_complete 8 8
      [⟨⟨"s1", "a"⟩, 5⟩, ⟨⟨"s2", "b"⟩, 5⟩]
      [⟨⟨"s1", "a"⟩, 5⟩, ⟨⟨"s2", "b"⟩, 5⟩]).1 rfl rfl,
    (chunk_planning_deterministic_complete 8 8
      [⟨⟨"s1", "a"⟩, 5⟩, ⟨⟨"s2", "b"⟩, 5⟩]
      [⟨⟨"s1", "a"⟩, 5⟩, ⟨⟨"s2", "b"⟩, 5⟩]).2.1⟩

/-! ## Output validator

Embeds `OutputValidator.validate_single_output`
(`src/src/output_validator.py` lines 69-169; the module
`src/central_bank_sentiment/output_validator.py` is identical on these
lines). Python values that can occur in a parsed LLM output are modelled by
`PyVal`: exact numbers (`isinstance(x, (int, float))` values — binary floats
are dyadic rationals, and the validator only compares them, so `ℚ` is
faithful), strings, lists, dicts and `None`. A parsed output object is an
association list of string keys. -/

/-- A Python value as observed by the validator. -/
inductive PyVal where
  | num (q : ℚ)
  | str (s : String)
  | list (xs : List PyVal)
  | dict (fields : List (String × PyVal))
  | none

/-- A parsed JSON object (Python dict with string keys). -/
abbrev PyDict := List (String × PyVal)

/-- Python `d[key]` lookup as an `Option` (first binding wins, as in a dict
built in insertion order). -/
def pyLookup : PyDict → String → Option PyVal
  | [], _ => Option.none
  | (k, v) :: rest, key => if k = key then some v else pyLookup rest key

/-- Python `key in d`. -/
def pyContains (d : PyDict) (key : String) : Bool :=
  (pyLookup d key).isSome

/-- Python `d.get(key, default)`. -/
def pyGetD (d : PyDict) (key : String) (default : PyVal) : PyVal :=
  (pyLookup d key).getD default

/-- Python `d.get(key)` (default `None`). -/
def pyGet (d : PyDict) (key : String) : PyVal :=
  pyGetD d key PyVal.none

/-- Rendering of a Python type for the `got: {type(x)}` error strings. -/
def pyTypeName : PyVal → String
  | .num _ => "number"
  | .str _ => "str"
  | .list _ => "list"
  | .dict _ => "dict"
  | .none => "NoneType"

/-- Rough rendering of a value for error strings. -/
def pyRepr : PyVal → String
  | .num q => toString q
  | .str s => s
  | .list _ => "list"
  | .dict _ => "dict"
  | .none => "None"

/-- Python `len(s.strip()) == 0` — true iff every character of `s` is whitespace. -/
def py_strip_isEmpty (s : String) : Bool :=
  s.toList.all (fun c => c.isWhitespace)

/-- The list `self.required_fields` (`output_validator.py` lines 33-41). -/
def required_fields : List String :=
  ["hawkish_dovish_score", "topics", "uncertainty",
   "forward_guidance_strength", "key_sentences", "market_impact", "summary"]

/-- The list `self.required_topic_fields` (lines 43-49). -/
def required_topic_fields : List String :=
  ["inflation", "growth", "financial_stability", "labor_market",
   "international"]

/-- The list `self.required_market_fields` (lines 51-56). -/
def required_market_fields : List String :=
  ["stocks", "bonds", "currency", "reasoning"]

/-- The list `self.valid_market_values` (line 67). -/
def valid_market_values : List String :=
  ["rise", "fall", "neutral"]

/-- Check 1 (lines 90-92): one `Missing required field` message per absent
required top-level field, in declaration order. -/
def missing_field_errors (output : PyDict) : List String :=
  (required_fields.filter (fun f => ! pyContains output f)).map
    (fun f => "Missing required field: " ++ f)

/-- Check 2 (lines 98-102): hawkish/dovish score numeric and in
`[-100, 100]`. -/
def check_hd_score (output : PyDict) : List String :=
  match pyGet output "hawkish_dovish_score" with
  | .num q =>
      if q < -100 ∨ q > 100 then
        ["hawkish_dovish_score out of range [-100, 100]: " ++ pyRepr (.num q)]
      else []
  | v => ["hawkish_dovish_score must be numeric, got: " ++ pyTypeName v]

/-- Check 3 inner loop body (lines 109-117): one topic field. -/
def check_topic_field (topics : PyDict) (tf : String) : List String :=
  match pyLookup topics tf with
  | Option.none => ["Missing topic field: " ++ tf]
  | some (.num q) =>
      if q < 0 ∨ q > 100 then
        ["Topic " ++ tf ++ " out of range [0, 100]: " ++ pyRepr (.num q)]
      else []
  | some v => ["Topic " ++ tf ++ " must be numeric, got: " ++ pyTypeName v]

/-- Check 3 (lines 105-117): `topics` structure. -/
def check_topics (output : PyDict) : List String :=
  match pyGetD output "topics" (.dict []) with
  | .dict td => (required_topic_fields.map (check_topic_field td)).flatten
  | v => ["topics must be a dictionary, got: " ++ pyTypeName v]

/-- Checks 4 and 5 (lines 120-131): a `[0, 100]`-bounded top-level numeric
score fetched with `.get(field)`. -/
def check_bounded_score (output : PyDict) (field : String) : List String :=
  match pyGet output field with
  | .num q =>
      if q < 0 ∨ q > 100 then
        [field ++ " out of range [0, 100]: " ++ pyRepr (.num q)]
      else []
  | v => [field ++ " must be numeric, got: " ++ pyTypeName v]

/-- Check 6 (lines 134-138): `key_sentences` is a non-empty list. -/
def check_key_sentences (output : PyDict) : List String :=
  match pyGetD output "key_sentences" (.list []) with
  | .list xs => if xs.isEmpty then ["key_sentences is empty"] else []
  | v => ["key_sentences must be a list, got: " ++ pyTypeName v]

/-- Python `value in self.valid_market_values`: only a string can compare
equal to a member of the vocabulary list. -/
def in_market_vocab : PyVal → Bool
  | .str s => valid_market_values.contains s
  | _ => false

/-- Check 7 second loop body (lines 150-157): an enum-valued market impact
field, checked only when present. -/
def check_market_value (mi : PyDict) (f : String) : List String :=
  match pyLookup mi f with
  | Option.none => []
  | some v =>
      if in_market_vocab v then []
      else
        ["market_impact." ++ f ++ " must be one of [rise, fall, neutral], got: "
          ++ pyRepr v]

/-- Check 7 (lines 141-157): `market_impact` structure and enum values. -/
def check_market_impact (output : PyDict) : List String :=
  match pyGetD output "market_impact" (.dict []) with
  | .dict mi =>
      ((required_market_fields.filter (fun f => ! pyContains mi f)).map
          (fun f => "Missing market_impact field: " ++ f)) ++
        ((["stocks", "bonds", "currency"].map (check_market_value mi)).flatten)
  | v => ["market_impact must be a dictionary, got: " ++ pyTypeName v]

/-- Check 8 (lines 160-164): `summary` is a string with non-empty strip. -/
def check_summary (output : PyDict) : List String :=
  match pyGetD output "summary" (.str "") with
  | .str s => if py_strip_isEmpty s then ["summary is empty"] else []
  | v => ["summary must be a string, got: " ++ pyTypeName v]

/-- Embeds `OutputValidator.validate_single_output` (lines 69-169): returns
`(is_valid, errors)`. If any required top-level field is absent, it returns
early with exactly the missing-field messages; otherwise it runs the eight
checks in order and is valid iff no error was collected. -/
def validate_single_output (output : PyDict) : Bool × List String :=
  let missing := missing_field_errors output
  if missing ≠ [] then (false, missing)
  else
    let errors :=
      check_hd_score output ++ check_topics output ++
        check_bounded_score output "uncertainty" ++
        check_bounded_score output "forward_guidance_strength" ++
        check_key_sentences output ++ check_market_impact output ++
        check_summary output
    (errors.isEmpty, errors)

lemma append_ne_nil_of_right {α : Type _} (l₁ l₂ : List α) (h : l₂ ≠ []) :
    l₁ ++ l₂ ≠ [] := by
  intro hc
  rcases List.append_eq_nil.mp hc with ⟨-, h2⟩
  exact h h2

lemma missing_field_errors_eq_nil (output : PyDict)
    (h : ∀ f ∈ required_fields, pyContains output f) :
    missing_field_errors output = [] := by
  unfold missing_field_errors
  rw [List.map_eq_nil_iff, List.filter_eq_nil_iff]
  intro f hf
  simp [h f hf]

/-- C8: with all required fields present, a `hawkish_dovish_score` outside
`[-100, 100]` or a market impact enum value outside the vocabulary makes
`validate_single_output` return invalid with a non-empty error list, while a
structurally complete record with everything in range yields
`(True, [])`. -/
theorem validator_contract :
    (∀ (output : PyDict) (q : ℚ),
        (∀ f ∈ required_fields, pyContains output f) →
        pyGet output "hawkish_dovish_score" = .num q →
        (q < -100 ∨ q > 100) →
        (validate_single_output output).1 = false ∧
          (validate_single_output output).2 ≠ []) ∧
    (∀ (output mi : PyDict) (f : String) (v : PyVal),
        (∀ f' ∈ required_fields, pyContains output f') →
        pyGetD output "market_impact" (.dict []) = .dict mi →
        f ∈ (["stocks", "bonds", "currency"] : List String) →
        pyLookup mi f = some v →
        in_market_vocab v = false →
        (validate_single_output output).1 = false ∧
          (validate_single_output output).2 ≠ []) ∧
    (∀ (output : PyDict) (hd u fg : ℚ) (td mi : PyDict) (ks : List PyVal)
        (sm : String),
        (∀ f ∈ required_fields, pyContains output f) →
        pyGet output "hawkish_dovish_score" = .num hd →
        -100 ≤ hd → hd ≤ 100 →
        pyGetD output "topics" (.dict []) = .dict td →
        (∀ tf ∈ required_topic_fields,
          ∃ q : ℚ, pyLookup td tf = some (.num q) ∧ 0 ≤ q ∧ q ≤ 100) →
        pyGet output "uncertainty" = .num u → 0 ≤ u → u ≤ 100 →
        pyGet output "forward_guidance_strength" = .num fg → 0 ≤ fg → fg ≤ 100 →
        pyGetD output "key_sentences" (.list []) = .list ks → ks ≠ [] →
        pyGetD output "market_impact" (.dict []) = .dict mi →
        (∀ mf ∈ required_market_fields, pyContains mi mf) →
        (∀ f ∈ (["stocks", "bonds", "currency"] : List String),
          ∃ v, pyLookup mi f = some v ∧ in_market_vocab v = true) →
        pyGetD output "summary" (.str "") = .str sm →
        py_strip_isEmpty sm = false →
        validate_single_output output = (true, [])) := by
  refine ⟨?_, ?_, ?_⟩
  · intro output q hall hget hq
    have hmiss := missing_field_errors_eq_nil output hall
    have hhd : check_hd_score output =
        ["hawkish_dovish_score out of range [-100, 100]: " ++ pyRepr (.num q)] := by
      simp only [check_hd_score, hget]
      rw [if_pos hq]
    unfold validate_single_output
    rw [if_neg (by simp [hmiss])]
    rw [hhd]
    simp
  · intro output mi f v hall hmi hf hlook hvocab
    have hmiss := missing_field_errors_eq_nil output hall
    have hval : check_market_value mi f ≠ [] := by
      simp only [check_market_value, hlook]
      rw [if_neg (by simp [hvocab])]
      simp
    have hflat : ((["stocks", "bonds", "currency"].map
        (check_market_value mi)).flatten : List String) ≠ [] := by
      intro hc
      rw [List.flatten_eq_nil_iff] at hc
      exact hval (hc _ (List.mem_map_of_mem (check_market_value mi) hf))
    have hmarket : check_market_impact output ≠ [] := by
      simp only [check_market_impact, hmi]
      exact append_ne_nil_of_right _ _ hflat
    unfold validate_single_output
    rw [if_neg (by simp [hmiss])]
    have hne : check_hd_score output ++ check_topics output ++
        check_bounded_score output "uncertainty" ++
        check_bounded_score output "forward_guidance_strength" ++
        check_key_sentences output ++ check_market_impact output ++
        check_summary output ≠ [] := by
      intro hc
      rcases List.append_eq_nil.mp hc with ⟨hc, -⟩
      rcases List.append_eq_nil.mp hc with ⟨-, hc⟩
      exact hmarket hc
    exact ⟨by simpa using hne, hne⟩
  · intro output hd u fg td mi ks sm hall hhd hhd0 hhd1 htd htopics hu hu0 hu1
      hfg hfg0 hfg1 hks hksne hmi hmf hmvals hsm hsmne
    have hmiss := missing_field_errors_eq_nil output hall
    have h2 : check_hd_score output = [] := by
      simp only [check_hd_score, hhd]
      rw [if_neg (by push_neg; exact ⟨hhd0, hhd1⟩)]
    have h3 : check_topics output = [] := by
      simp only [check_topics, htd]
      rw [List.flatten_eq_nil_iff]
      intro l hl
      rcases List.mem_map.mp hl with ⟨tf, htf, rfl⟩
      obtain ⟨q, hq, hq0, hq1⟩ := htopics tf htf
      simp only [check_topic_field, hq]
      rw [if_neg (by push_neg; exact ⟨hq0, hq1⟩)]
    have h4 : check_bounded_score output "uncertainty" = [] := by
      simp only [check_bounded_score, hu]
      rw [if_neg (by push_neg; exact ⟨hu0, hu1⟩)]
    have h5 : check_bounded_score output "forward_guidance_strength" = [] := by
      simp only [check_bounded_score, hfg]
      rw [if_neg (by push_neg; exact ⟨hfg0, hfg1⟩)]
    have h6 : check_key_sentences output = [] := by
      simp only [check_key_sentences, hks]
      rw [if_neg (by simp [hksne])]
    have h7 : check_market_impact output = [] := by
      simp only [check_market_impact, hmi]
      rw [List.append_eq_nil]
      constructor
      · rw [List.map_eq_nil_iff, List.filter_eq_nil_iff]
        intro f hf
        simp [hmf f hf]
      · rw [List.flatten_eq_nil_iff]
        intro l hl
        rcases List.mem_map.mp hl with ⟨f, hf, rfl⟩
        obtain ⟨v, hv, hvv⟩ := hmvals f hf
        simp only [check_market_value, hv]
        rw [if_pos hvv]
    have h8 : check_summary output = [] := by
      simp only [check_summary, hsm]
      rw [if_neg (by simp [hsmne])]
    unfold validate_single_output
    rw [if_neg (by simp [hmiss])]
    rw [h2, h3, h4, h5, h6, h7, h8]
    rfl

/-- A structurally complete, in-range output (mirrors the sample in the
validator's own `__main__` demo, with enum values all in the vocabulary). -/
def sample_valid_output : PyDict :=
  [("hawkish_dovish_score", .num 45),
   ("topics", .dict
      [("inflation", .num 80), ("growth", .num 30),
       ("financial_stability", .num 20), ("labor_market", .num 40),
       ("international", .num 10)]),
   ("uncertainty", .num 35),
   ("forward_guidance_strength", .num 60),
   ("key_sentences", .list [.str "Inflation remains elevated"]),
   ("market_impact", .dict
      [("stocks", .str "fall"), ("bonds", .str "rise"),
       ("currency", .str "neutral"), ("reasoning", .str "Hawkish tone")]),
   ("summary", .str "Hawkish stance with focus on inflation.")]

/-- Record `sample_valid_output` with `hawkish_dovish_score = 150`. -/
def sample_hd150_output : PyDict :=
  ("hawkish_dovish_score", PyVal.num 150) :: sample_valid_output.tail

/-- Record `sample_valid_output` with `market_impact.stocks = "up"`. -/
def sample_up_output : PyDict :=
  [("hawkish_dovish_score", .num 45),
   ("topics", .dict
      [("inflation", .num 80), ("growth", .num 30),
       ("financial_stability", .num 20), ("labor_market", .num 40),
       ("international", .num 10)]),
   ("uncertainty", .num 35),
   ("forward_guidance_strength", .num 60),
   ("key_sentences", .list [.str "Inflation remains elevated"]),
   ("market_impact", .dict
      [("stocks", .str "up"), ("bonds", .str "rise"),
       ("currency", .str "neutral"), ("reasoning", .str "Hawkish tone")]),
   ("summary", .str "Hawkish stance with focus on inflation.")]

/-- Witness for `validator_contract` at the three concrete records. -/
theorem validator_contract_witness :
    ((validate_single_output sample_hd150_output).1 = false ∧
        (validate_single_output sample_hd150_output).2 ≠ []) ∧
      ((validate_single_output sample_up_output).1 = false ∧
        (validate_single_output sample_up_output).2 ≠ []) ∧
      validate_single_output sample_valid_output = (true, []) :=
  ⟨validator_contract.1 sample_hd150_output 150 (by decide) rfl
      (by right; norm_num),
    validator_contract.2.1 sample_up_output
      [("stocks", .str "up"), ("bonds", .str "rise"),
       ("currency", .str "neutral"), ("reasoning", .str "Hawkish tone")]
      "stocks" (.str "up") (by decide) rfl (by decide) rfl (by decide),
    validator_contract.2.2 sample_valid_output 45 35 60
      [("inflation", .num 80), ("growth", .num 30),
       ("financial_stability", .num 20), ("labor_market", .num 40),
       ("international", .num 10)]
      [("stocks", .str "fall"), ("bonds", .str "rise"),
       ("currency", .str "neutral"), ("reasoning", .str "Hawkish tone")]
      [.str "Inflation remains elevated"]
      "Hawkish stance with focus on inflation."
      (by decide) rfl (by norm_num) (by norm_num) rfl
      (by intro tf htf
          fin_cases htf
          · exact ⟨80, rfl, by norm_num, by norm_num⟩
          · exact ⟨30, rfl, by norm_num, by norm_num⟩
          · exact ⟨20, rfl, by norm_num, by norm_num⟩
          · exact ⟨40, rfl, by norm_num, by norm_num⟩
          · exact ⟨10, rfl, by norm_num, by norm_num⟩)
      rfl (by norm_num) (by norm_num) rfl (by norm_num) (by norm_num)
      rfl (by exact List.cons_ne_nil _ _) rfl (by decide)
      (by intro f hf
          fin_cases hf
          · exact ⟨.str "fall", rfl, rfl⟩
          · exact ⟨.str "rise", rfl, rfl⟩
          · exact ⟨.str "neutral", rfl, rfl⟩)
      rfl (by decide)⟩

/-- C10: when at least one required top-level field is absent,
`validate_single_output` returns invalid with exactly one missing-field
message per absent field (in declaration order) and performs no further
check on the fields that are present. -/
theorem missing_fields_short_circuit (output : PyDict)
    (h : ∃ f ∈ required_fields, ¬ pyContains output f) :
    validate_single_output output =
      (false,
        (required_fields.filter (fun f => ! pyContains output f)).map
          (fun f => "Missing required field: " ++ f)) := by
  have hne : missing_field_errors output ≠ [] := by
    obtain ⟨f, hf, hnc⟩ := h
    unfold missing_field_errors
    intro hc
    rw [List.map_eq_nil_iff, List.filter_eq_nil_iff] at hc
    exact (hc f hf) (by simpa using hnc)
  unfold validate_single_output
  rw [if_pos hne]
  rfl

/-- Witness for `missing_fields_short_circuit`: a record carrying only an
(out-of-range!) score and a malformed topics value — none of which is
checked, because `summary` etc. are absent. -/
theorem missing_fields_short_circuit_witness :
    validate_single_output
        [("hawkish_dovish_score", .num 150), ("topics", .num 3)] =
      (false,
        ["Missing required field: uncertainty",
         "Missing required field: forward_guidance_strength",
         "Missing required field: key_sentences",
         "Missing required field: market_impact",
         "Missing required field: summary"]) := by
  have h := missing_fields_short_circuit
    [("hawkish_dovish_score", .num 150), ("topics", .num 3)]
    ⟨"summary", by decide, by decide⟩
  rw [h]
  rfl

/-! ## Status polling loops

Embeds the two polling loops. `BatchProcessor.monitor_batch`
(`src/central_bank_sentiment/batch_processor.py` lines 209-244) is a
`while True` loop with **no timeout**: it returns only when the retrieved
status is terminal, and otherwise sleeps and retries forever.
`BatchProcessor.wait_for_completion` (`src/src/batch_processor.py` lines
180-268) checks `elapsed > timeout` at the top of each iteration and breaks
out once the overall timeout has elapsed. A run is modelled against a status
stream `statuses : Nat → String` giving the status returned by the `k`-th
remote query; elapsed time at the `k`-th query is `k * check_interval`
(one `time.sleep(check_interval)` per completed iteration). -/

/-- Terminal job statuses, as classified by both loops
(`completed` plus `['failed', 'expired', 'cancelled']`). -/
def is_terminal_status (s : String) : Bool :=
  s = "completed" || s = "failed" || s = "expired" || s = "cancelled"

/-- Runs `monitor_batch`, fuel-indexed: run at most `n` further iterations of the
`while True` loop starting from the `k`-th status query. `Option.none` means
the loop has not returned within `n` iterations — the real loop has no other
exit, so `monitor_batch` returns iff some fuel suffices. -/
def monitor_batch_iters (statuses : Nat → String) (k : Nat) :
    Nat → Option String
  | 0 => Option.none
  | n + 1 =>
      if is_terminal_status (statuses k) then some (statuses k)
      else monitor_batch_iters statuses (k + 1) n

/-- Holds when `monitor_batch` eventually returns on the given status stream. -/
def MonitorBatchReturns (statuses : Nat → String) : Prop :=
  ∃ n, (monitor_batch_iters statuses 0 n).isSome

lemma monitor_batch_iters_const_in_progress (n k : Nat) :
    monitor_batch_iters (fun _ => "in_progress") k n = Option.none := by
  induction n generalizing k with
  | zero => rfl
  | succ n ih =>
      unfold monitor_batch_iters
      rw [if_neg (by decide)]
      exact ih (k + 1)

/-- C7 counterexample: `monitor_batch` has no overall timeout — on a job
whose status stream stays `in_progress` forever it never returns control to
the caller, no matter how many iterations elapse. -/
theorem monitor_batch_never_returns :
    ¬ MonitorBatchReturns (fun _ => "in_progress") := by
  rintro ⟨n, hn⟩
  rw [monitor_batch_iters_const_in_progress n 0] at hn
  simp at hn

/-- Result of `wait_for_completion`: either the loop broke on the overall
timeout, or a terminal status was observed. -/
inductive WaitOutcome where
  | timedOut
  | finished (s : String)
deriving DecidableEq, Repr

/-- Embeds `wait_for_completion` iterations (lines 214-266): at the top of each
iteration the elapsed time is compared against the timeout (`break` on
excess); otherwise the status is fetched and returned if terminal, else the
loop sleeps `check_interval` and retries. Fuel-indexed for totality; the
termination theorem shows the stated fuel always suffices. -/
def wait_iters (statuses : Nat → String) (check_interval timeout : Nat) :
    Nat → Nat → Option WaitOutcome
  | _, 0 => Option.none
  | k, n + 1 =>
      if k * check_interval > timeout then some WaitOutcome.timedOut
      else
        if is_terminal_status (statuses k) then
          some (WaitOutcome.finished (statuses k))
        else wait_iters statuses check_interval timeout (k + 1) n

/-- Runs `BatchProcessor.wait_for_completion`, started at the first query with
enough fuel to reach the timeout. -/
def wait_for_completion (statuses : Nat → String)
    (check_interval timeout : Nat) : Option WaitOutcome :=
  wait_iters statuses check_interval timeout 0 (timeout / check_interval + 2)

lemma wait_iters_isSome (statuses : Nat → String) (ci tmo : Nat)
    (hci : 0 < ci) :
    ∀ n k, tmo / ci + 2 ≤ n + k → 0 < n →
      (wait_iters statuses ci tmo k n).isSome := by
  intro n
  induction n with
  | zero => intro k _ h0; omega
  | succ n ih =>
      intro k h _
      unfold wait_iters
      by_cases hto : k * ci > tmo
      · rw [if_pos hto]; rfl
      · rw [if_neg hto]
        by_cases hterm : is_terminal_status (statuses k)
        · rw [if_pos hterm]; rfl
        · rw [if_neg hterm]
          have hk : k ≤ tmo / ci :=
            (Nat.le_div_iff_mul_le hci).mpr (by omega)
          exact ih (k + 1) (by omega) (by omega)

lemma monitor_batch_iters_some_of_terminal (statuses : Nat → String) :
    ∀ n k, (∃ j < n, is_terminal_status (statuses (k + j))) →
      (monitor_batch_iters statuses k n).isSome := by
  intro n
  induction n with
  | zero => rintro k ⟨j, hj, -⟩; omega
  | succ n ih =>
      rintro k ⟨j, hj, hterm⟩
      unfold monitor_batch_iters
      by_cases h0 : is_terminal_status (statuses k)
      · rw [if_pos h0]; rfl
      · rw [if_neg h0]
        apply ih
        rcases Nat.eq_zero_or_pos j with rfl | hjpos
        · simp only [Nat.add_zero] at hterm
          exact absurd hterm h0
        · exact ⟨j - 1, by omega, by
            have : k + 1 + (j - 1) = k + j := by omega
            rw [this]
            exact hterm⟩

/-- C7 amended: the polling loop that takes the configurable interval and
overall timeout — `wait_for_completion` — always returns (a terminal status
or a timeout indication) for every status stream whenever the check interval
is positive; `monitor_batch`, by contrast, returns exactly when the status
stream reaches a terminal state, and (per the counterexample) never on a job
that stays non-terminal forever. -/
theorem wait_for_completion_terminates (statuses : Nat → String)
    (check_interval timeout : Nat) (hci : 0 < check_interval) :
    (wait_for_completion statuses check_interval timeout).isSome = true ∧
      (∀ k, is_terminal_status (statuses k) = true →
        MonitorBatchReturns statuses) := by
  constructor
  · exact wait_iters_isSome statuses check_interval timeout hci
      (timeout / check_interval + 2) 0 (by simp)
      (Nat.succ_pos (timeout / check_interval + 1))
  · intro k hk
    exact ⟨k + 1,
      monitor_batch_iters_some_of_terminal statuses (k + 1) 0
        ⟨k, Nat.lt_succ_self k, by simpa using hk⟩⟩

/-- Witness for `wait_for_completion_terminates`: a 60-second interval,
120-second timeout, and a stream that never becomes terminal — the loop
still returns. -/
theorem wait_for_completion_terminates_witness :
    0 < 60 ∧
      (wait_for_completion (fun _ => "in_progress") 60 120).isSome = true :=
  ⟨by decide,
    (wait_for_completion_terminates (fun _ => "in_progress") 60 120
      (by decide)).1⟩

/-! ## Result merger

Embeds `BatchProcessor.parse_results` of `src/src/batch_processor.py`
(lines 416-517). Each input line (already split by the file iterator and
passed through the top-level `json.loads`) carries `custom_id`,
`response["status_code"]` and the message content, which either parses into
a JSON object or raises `json.JSONDecodeError`. Only `JSONDecodeError` is
caught (line 500); any other exception raised while flattening —
e.g. `AttributeError` when `sentiment_data["topics"]` is present but not a
dict, so `.get("topics", {}).get("inflation")` calls `.get` on a non-dict —
propagates and aborts the whole parse. -/

/-- Outcome of `json.loads(message_content)`. -/
inductive MsgContent where
  | parsed (d : PyDict)
  | malformed (msg : String)

/-- One line of a downloaded chunk output file. -/
structure ResultLine where
  custom_id : String
  status_code : Nat
  content : MsgContent

/-- One flattened result row (`flat_result`, lines 456-496). -/
structure FlatRow where
  speech_id : String
  hawkish_dovish_score : PyVal
  topic_inflation : PyVal
  topic_growth : PyVal
  topic_financial_stability : PyVal
  topic_labor_market : PyVal
  topic_international : PyVal
  uncertainty : PyVal
  forward_guidance_strength : PyVal
  market_impact_stocks : PyVal
  market_impact_bonds : PyVal
  market_impact_currency : PyVal
  market_impact_reasoning : PyVal
  summary : PyVal
  key_sentences : String

/-- Python `d.get(key, {}).get(sub)`: raises `AttributeError` when the value stored
under `key` is present but not a dict. -/
def pyGetNested (d : PyDict) (key sub : String) : Except String PyVal :=
  match pyGetD d key (.dict []) with
  | .dict inner => .ok (pyGet inner sub)
  | _ => .error ("AttributeError: " ++ key)

/-- Checks that every element is a string (Python `str.join` raises
`TypeError` otherwise). -/
def pyStrList : List PyVal → Option (List String)
  | [] => some []
  | .str s :: rest => (pyStrList rest).map (s :: ·)
  | _ => Option.none

/-- Python `"|".join(x)`: joins a list of strings; a plain string is joined
character-wise; a dict joins its keys; anything else raises `TypeError`. -/
def py_join_pipe : PyVal → Except String String
  | .list xs =>
      match pyStrList xs with
      | some ss => .ok (String.intercalate "|" ss)
      | Option.none => .error "TypeError: join"
  | .str s => .ok (String.intercalate "|" (s.toList.map String.singleton))
  | .dict fields => .ok (String.intercalate "|" (fields.map (·.1)))
  | _ => .error "TypeError: join"

/-- Building `flat_result` (lines 456-496) from the parsed message content;
errors are the uncaught exceptions raised by the `.get` chains or the
`"|".join`. -/
def build_flat_result (cid : String) (d : PyDict) : Except String FlatRow := do
  let ti ← pyGetNested d "topics" "inflation"
  let tg ← pyGetNested d "topics" "growth"
  let tfs ← pyGetNested d "topics" "financial_stability"
  let tl ← pyGetNested d "topics" "labor_market"
  let tn ← pyGetNested d "topics" "international"
  let ms ← pyGetNested d "market_impact" "stocks"
  let mb ← pyGetNested d "market_impact" "bonds"
  let mc ← pyGetNested d "market_impact" "currency"
  let mr ← pyGetNested d "market_impact" "reasoning"
  let ks ← py_join_pipe (pyGetD d "key_sentences" (.list []))
  .ok
    { speech_id := cid
      hawkish_dovish_score := pyGet d "hawkish_dovish_score"
      topic_inflation := ti
      topic_growth := tg
      topic_financial_stability := tfs
      topic_labor_market := tl
      topic_international := tn
      uncertainty := pyGet d "uncertainty"
      forward_guidance_strength := pyGet d "forward_guidance_strength"
      market_impact_stocks := ms
      market_impact_bonds := mb
      market_impact_currency := mc
      market_impact_reasoning := mr
      summary := pyGet d "summary"
      key_sentences := ks }

/-- Embeds `parse_results` (lines 433-511): walks the lines in order, appending one
flattened row per 200-status line whose content parses and flattens, logging
and skipping a line whose response failed or whose content is malformed
JSON, and propagating (aborting on) any other exception. Returns the rows
and the log messages. -/
def parse_results_src : List ResultLine → Except String (List FlatRow × List String)
  | [] => Except.ok ([], [])
  | l :: rest =>
      if l.status_code = 200 then
        match l.content with
        | .malformed m =>
            match parse_results_src rest with
            | .error e => .error e
            | .ok (rows, logs) =>
                .ok (rows,
                  ("Failed to parse response for " ++ l.custom_id ++ ": " ++ m)
                    :: logs)
        | .parsed d =>
            match build_flat_result l.custom_id d with
            | .error e => .error e
            | .ok row =>
                match parse_results_src rest with
                | .error e => .error e
                | .ok (rows, logs) => .ok (row :: rows, logs)
      else
        match parse_results_src rest with
        | .error e => .error e
        | .ok (rows, logs) =>
            .ok (rows, ("Request failed for " ++ l.custom_id) :: logs)

/-- A 200-status line whose content parses to JSON but stores a number under
`topics`. -/
def cex_bad_topics_line : ResultLine :=
  { custom_id := "s1", status_code := 200
    content := .parsed [("topics", .num 5)] }

/-- A well-formed 200-status line (all fields defaulted). -/
def cex_good_line : ResultLine :=
  { custom_id := "s2", status_code := 200, content := .parsed [] }

/-- C9 counterexample: the line `s1` has status 200 and JSON-parseable
content, yet yields no result row — instead the uncaught `AttributeError`
aborts the parse, dropping the following line `s2`, which on its own yields
exactly one row. -/
theorem parse_results_abort_counterexample :
    parse_results_src [cex_bad_topics_line, cex_good_line] =
        Except.error "AttributeError: topics" ∧
      (parse_results_src [cex_good_line]).toOption.map (fun p => p.1.length) =
        some 1 := by
  constructor <;> rfl

/-- C9 amended: per line, a failed (non-200) response or malformed message
content yields no row, is logged, and does not stop the walk over the
remaining lines; a 200 response whose content parses and flattens yields
exactly one row; but a 200 response whose parsed content cannot be flattened
(e.g. a non-dict `topics`) raises an uncaught error that aborts the parse of
all remaining lines. -/
theorem parse_results_per_line (l : ResultLine) (rest : List ResultLine) :
    (l.status_code ≠ 200 →
        parse_results_src (l :: rest) =
          (parse_results_src rest).map
            (fun p => (p.1, ("Request failed for " ++ l.custom_id) :: p.2))) ∧
      (∀ m, l.status_code = 200 → l.content = .malformed m →
        parse_results_src (l :: rest) =
          (parse_results_src rest).map
            (fun p =>
              (p.1,
                ("Failed to parse response for " ++ l.custom_id ++ ": " ++ m)
                  :: p.2))) ∧
      (∀ d row, l.status_code = 200 → l.content = .parsed d →
        build_flat_result l.custom_id d = .ok row →
        parse_results_src (l :: rest) =
          (parse_results_src rest).map (fun p => (row :: p.1, p.2))) ∧
      (∀ d e, l.status_code = 200 → l.content = .parsed d →
        build_flat_result l.custom_id d = .error e →
        parse_results_src (l :: rest) = .error e) := by
  refine ⟨?_, ?_, ?_, ?_⟩
  · intro h
    simp only [parse_results_src]
    rw [if_neg h]
    cases hres : parse_results_src rest with
    | error e => rfl
    | ok p => obtain ⟨rows, logs⟩ := p; rfl
  · intro m h hc
    simp only [parse_results_src]
    rw [if_pos h, hc]
    cases hres : parse_results_src rest with
    | error e => rfl
    | ok p => obtain ⟨rows, logs⟩ := p; rfl
  · intro d row h hc hb
    simp only [parse_results_src]
    rw [if_pos h, hc]
    simp only [hb]
    cases hres : parse_results_src rest with
    | error e => rfl
    | ok p => obtain ⟨rows, logs⟩ := p; rfl
  · intro d e h hc hb
    simp only [parse_results_src]
    rw [if_pos h, hc]
    simp only [hb]

/-- Witness for `parse_results_per_line` at concrete lines: a failed-status
line is logged and skipped while the rest is still parsed, and a well-formed
line yields exactly one row. -/
theorem parse_results_per_line_witness :
    parse_results_src
        [{ custom_id := "s0", status_code := 500,
           content := .malformed "boom" }, cex_good_line] =
      (parse_results_src [cex_good_line]).map
        (fun p => (p.1, ("Request failed for " ++ "s0") :: p.2)) :=
  (parse_results_per_line
    { custom_id := "s0", status_code := 500, content := .malformed "boom" }
    [cex_good_line]).1 (by decide)

/-! ## Submission ledger and the resume/submission orchestrator

Embeds `BatchProcessor.process_all_chunks` and `_save_batch_info`
(`src/central_bank_sentiment/batch_processor.py` lines 40-43 and 328-439)
together with the `monitor_batch` status-change callback wiring
(lines 401-410). The ledger (`batch_info.json`) is a JSON object with one
`_metadata` record and one entry per chunk file name. The orchestrator is
modelled as explicit state passing over `Ledger`, a tick counter standing
for successive `datetime.now()` values, and an emitted event trace: a
`mutate` for each in-memory ledger mutation, a `save` for each
`_save_batch_info` that actually writes (i.e. when `batch_info_file` is
set), and a `remote` for each remote API call (file upload, batch create,
batch retrieve, file content download). Remote outcomes are supplied by a
per-chunk environment; a raised exception anywhere in the per-chunk `try`
block lands in the `except` handler (lines 424-431). -/

/-- One ledger entry (a JSON object). Absent keys are `Option.none`;
`previous_batch_id` stores a present-but-possibly-null value. -/
structure Entry where
  chunk_number : Option Nat := Option.none
  batch_id : Option String := Option.none
  file_id : Option String := Option.none
  num_requests : Option Nat := Option.none
  status : Option String := Option.none
  submitted_at : Option Nat := Option.none
  updated_at : Option Nat := Option.none
  completed_at : Option Nat := Option.none
  output_file : Option String := Option.none
  error : Option String := Option.none
  failed_at : Option Nat := Option.none
  resubmitted : Option Bool := Option.none
  previous_batch_id : Option (Option String) := Option.none
deriving DecidableEq, Repr

/-- The `_metadata` record (lines 355-360 and 433-437). -/
structure Metadata where
  total_chunks : Nat
  total_speeches : Nat
  started_at : Nat
  status : String
  completed_at : Option Nat := Option.none
deriving DecidableEq, Repr

/-- The ledger object: the `_metadata` record plus the per-chunk entries in
insertion order. -/
structure Ledger where
  metadata : Option Metadata := Option.none
  entries : List (String × Entry) := []
deriving DecidableEq, Repr

/-- Python `batch_info[name]` lookup. -/
def lookup_assoc : List (String × Entry) → String → Option Entry
  | [], _ => Option.none
  | (k, v) :: rest, name => if k == name then some v else lookup_assoc rest name

/-- Python `batch_info.get(name)` on the ledger. -/
def lookup_entry (led : Ledger) (name : String) : Option Entry :=
  lookup_assoc led.entries name

/-- Python `batch_info[name] = e`: replace in place, or append a new key. -/
def update_entry : List (String × Entry) → String → Entry →
    List (String × Entry)
  | [], name, e => [(name, e)]
  | (k, v) :: rest, name, e =>
      if k == name then (k, e) :: rest else (k, v) :: update_entry rest name e

/-- In-place mutation of the fields of an existing entry
(`batch_info[name]['field'] = ...`). -/
def modify_entry (entries : List (String × Entry)) (name : String)
    (f : Entry → Entry) : List (String × Entry) :=
  entries.map (fun p => if p.1 == name then (p.1, f p.2) else p)

/-- Observable events of a run. -/
inductive Event where
  | mutate
  | save
  | remote
deriving DecidableEq, Repr

/-- Embeds `_save_batch_info` (lines 40-43): writes the ledger file only when a
`batch_info_file` was configured. -/
def save_events (has_file : Bool) : List Event :=
  if has_file then [Event.save] else []

/-- A chunk file on disk: its name and line (request) count. -/
structure ChunkFile where
  name : String
  num_requests : Nat
deriving DecidableEq, Repr

/-- Remote outcomes for one chunk's processing: the file upload, the batch
create, the post-submit `batches.retrieve` (returning `input_file_id`), the
stream of `batches.retrieve` outcomes seen by `monitor_batch`, and the
download. An `Except.error` is a raised exception. -/
structure ChunkEnv where
  upload : Except String String
  create : Except String String
  retrieve : Except String String
  monitor : List (Except String String)
  download : Except String Unit
deriving Repr

/-- Computes `output_file = batch_file.name.replace('_input.jsonl', '_results.jsonl')`
(line 418). -/
def results_name (s : String) : String :=
  s.replace "_input.jsonl" "_results.jsonl"

/-- The entry written by the `except` handler (lines 426-430): the previous
entry is replaced wholesale. -/
def error_entry (e : String) (t : Nat) : Entry :=
  { status := some "error", error := some e, failed_at := some t }

/-- Embeds `monitor_batch` as driven by `process_all_chunks` (lines 209-244 with the
`update_status` callback of lines 403-407): each outcome is one remote
status query; on a changed status the callback mutates the entry
(`status`, `updated_at`) and saves; a terminal status is returned; an
exception propagates. `Option.none` as the result means the modelled
outcome stream ran out with the loop still going (the real loop would keep
polling — divergence). -/
def run_monitor (has_file : Bool) (name : String) :
    List (Except String String) → Ledger → Nat → Option String →
    Ledger × List Event × Nat × Option (Except String String)
  | [], led, t, _ => (led, [], t, Option.none)
  | .error e :: _, led, t, _ => (led, [Event.remote], t, some (.error e))
  | .ok s :: rest, led, t, last =>
      if some s = last then
        if is_terminal_status s then (led, [Event.remote], t, some (.ok s))
        else
          let r := run_monitor has_file name rest led t (some s)
          (r.1, Event.remote :: r.2.1, r.2.2.1, r.2.2.2)
      else
        let led1 : Ledger := ⟨led.metadata, modify_entry led.entries name
          (fun en => { en with status := some s, updated_at := some t })⟩
        if is_terminal_status s then
          (led1, Event.remote :: Event.mutate :: save_events has_file, t + 1,
            some (.ok s))
        else
          let r := run_monitor has_file name rest led1 (t + 1) (some s)
          (r.1, Event.remote :: Event.mutate :: save_events has_file ++ r.2.1,
            r.2.2.1, r.2.2.2)

/-- The per-chunk `try` body plus `except` handler (lines 376-431):
`submit_batch` (upload + create, two remote calls), the metadata
`batches.retrieve`, the entry assignment with its immediate save, then —
unless `submit_only` — monitoring, the final status/`completed_at` mutation
and save, and on `completed` the download (two remote calls) and the
`output_file` mutation and save. Any raised exception replaces the entry
with an error entry and saves. The final `Bool` signals monitor
divergence. -/
def process_chunk_try (has_file submit_only : Bool) (i : Nat) (cf : ChunkFile)
    (env : ChunkEnv) (led : Ledger) (t : Nat) :
    Ledger × List Event × Nat × Bool :=
  match env.upload with
  | .error e =>
      (⟨led.metadata, update_entry led.entries cf.name (error_entry e t)⟩,
        [Event.remote, Event.mutate] ++ save_events has_file, t + 1, false)
  | .ok _ =>
    match env.create with
    | .error e =>
        (⟨led.metadata, update_entry led.entries cf.name (error_entry e t)⟩,
          [Event.remote, Event.remote, Event.mutate] ++ save_events has_file,
          t + 1, false)
    | .ok batch_id =>
      match env.retrieve with
      | .error e =>
          (⟨led.metadata, update_entry led.entries cf.name (error_entry e t)⟩,
            [Event.remote, Event.remote, Event.remote, Event.mutate] ++
              save_events has_file, t + 1, false)
      | .ok input_file_id =>
          let led1 : Ledger := ⟨led.metadata, update_entry led.entries cf.name
            { chunk_number := some i, batch_id := some batch_id,
              file_id := some input_file_id,
              num_requests := some cf.num_requests,
              status := some "submitted", submitted_at := some t }⟩
          let evs1 :=
            [Event.remote, Event.remote, Event.remote, Event.mutate] ++
              save_events has_file
          let t1 := t + 1
          if submit_only then (led1, evs1, t1, false)
          else
            let m := run_monitor has_file cf.name env.monitor led1 t1
              Option.none
            match m.2.2.2 with
            | Option.none => (m.1, evs1 ++ m.2.1, m.2.2.1, true)
            | some (.error e) =>
                (⟨m.1.metadata,
                    update_entry m.1.entries cf.name (error_entry e m.2.2.1)⟩,
                  evs1 ++ m.2.1 ++ [Event.mutate] ++ save_events has_file,
                  m.2.2.1 + 1, false)
            | some (.ok st) =>
                let led3 : Ledger := ⟨m.1.metadata, modify_entry m.1.entries
                  cf.name (fun en =>
                    { en with status := some st, completed_at := some m.2.2.1 })⟩
                let evs3 := [Event.mutate] ++ save_events has_file
                let t3 := m.2.2.1 + 1
                if st = "completed" then
                  match env.download with
                  | .error e =>
                      (⟨led3.metadata, update_entry led3.entries cf.name
                          (error_entry e t3)⟩,
                        evs1 ++ m.2.1 ++ evs3 ++
                          [Event.remote, Event.mutate] ++ save_events has_file,
                        t3 + 1, false)
                  | .ok _ =>
                      (⟨led3.metadata, modify_entry led3.entries cf.name
                          (fun en =>
                            { en with
                              output_file := some (results_name cf.name) })⟩,
                        evs1 ++ m.2.1 ++ evs3 ++
                          [Event.remote, Event.remote, Event.mutate] ++
                          save_events has_file,
                        t3, false)
                else (led3, evs1 ++ m.2.1 ++ evs3, t3, false)

/-- The skip test (lines 370-374): an already tracked chunk whose status is
`completed` or `in_progress` is skipped. -/
def chunk_skip (led : Ledger) (name : String) : Bool :=
  match lookup_entry led name with
  | some entry =>
      entry.status = some "completed" || entry.status = some "in_progress"
  | Option.none => false

/-- The `for i, batch_file in enumerate(batch_files, 1)` sweep
(lines 364-431). Divergence inside one chunk's monitoring stops the run. -/
def process_loop (has_file submit_only : Bool) :
    List (Nat × ChunkFile × ChunkEnv) → Ledger → Nat →
    Ledger × List Event × Nat × Bool
  | [], led, t => (led, [], t, false)
  | (i, cf, env) :: rest, led, t =>
      if chunk_skip led cf.name then
        process_loop has_file submit_only rest led t
      else
        let r1 := process_chunk_try has_file submit_only i cf env led t
        if r1.2.2.2 then r1
        else
          let r2 := process_loop has_file submit_only rest r1.1 r1.2.2.1
          (r2.1, r1.2.1 ++ r2.2.1, r2.2.2.1, r2.2.2.2)

/-- Embeds `BatchProcessor.process_all_chunks` (lines 328-439): create/overwrite
the `_metadata` record and save it (when a ledger file is configured), sweep
all chunks, then stamp the metadata `completed_at`/`status` and save. -/
def process_all_chunks (has_file submit_only : Bool)
    (files : List (ChunkFile × ChunkEnv)) (led0 : Ledger) (t0 : Nat) :
    Ledger × List Event × Nat :=
  let init :=
    if has_file then
      ((⟨some { total_chunks := files.length,
                total_speeches := (files.map (fun f => f.1.num_requests)).sum,
                started_at := t0, status := "submitting" },
          led0.entries⟩ : Ledger),
        [Event.mutate, Event.save], t0 + 1)
    else (led0, ([] : List Event), t0)
  let r := process_loop has_file submit_only (List.enumFrom 1 files)
    init.1 init.2.2
  let fin :=
    if has_file ∧ ¬ r.2.2.2 then
      ((⟨r.1.metadata.map (fun m =>
            { m with completed_at := some r.2.2.1, status := "completed" }),
          r.1.entries⟩ : Ledger),
        [Event.mutate, Event.save], r.2.2.1 + 1)
    else (r.1, ([] : List Event), r.2.2.1)
  (fin.1, init.2.1 ++ r.2.1 ++ fin.2.1, fin.2.2)

/-- Dirty-state automaton over a trace: a `mutate` makes the in-memory
ledger dirty (ahead of the file), a `save` makes it clean again, a `remote`
leaves it unchanged. -/
def dirty_after (d : Bool) : List Event → Bool
  | [] => d
  | Event.mutate :: evs => dirty_after true evs
  | Event.save :: evs => dirty_after false evs
  | Event.remote :: evs => dirty_after d evs

/-- A trace is acceptable from dirty-state `d` iff no `remote` event occurs
while the ledger is dirty. -/
def trace_ok_from (d : Bool) : List Event → Bool
  | [] => true
  | Event.mutate :: evs => trace_ok_from true evs
  | Event.save :: evs => trace_ok_from false evs
  | Event.remote :: evs => !d && trace_ok_from d evs

/-- The persistence invariant of a run's trace: starting clean, every remote
call happens with all prior ledger mutations already saved. -/
def persisted_before_remote (evs : List Event) : Bool :=
  trace_ok_from false evs

/-- A clean segment: acceptable from a clean start, and ending clean. -/
def CleanSeg (evs : List Event) : Prop :=
  trace_ok_from false evs = true ∧ dirty_after false evs = false

lemma dirty_after_append (a b : List Event) :
    ∀ d, dirty_after d (a ++ b) = dirty_after (dirty_after d a) b := by
  induction a with
  | nil => intro d; rfl
  | cons e rest ih =>
      intro d
      cases e
      · exact ih true
      · exact ih false
      · exact ih d

lemma trace_ok_from_append (a b : List Event) :
    ∀ d, trace_ok_from d (a ++ b) =
      (trace_ok_from d a && trace_ok_from (dirty_after d a) b) := by
  induction a with
  | nil => intro d; simp [trace_ok_from, dirty_after]
  | cons e rest ih =>
      intro d
      cases e
      · exact ih true
      · exact ih false
      · show (!d && trace_ok_from d (rest ++ b)) =
          ((!d && trace_ok_from d rest) && trace_ok_from (dirty_after d rest) b)
        rw [ih d, Bool.and_assoc]

lemma cleanSeg_append {a b : List Event} (ha : CleanSeg a) (hb : CleanSeg b) :
    CleanSeg (a ++ b) := by
  obtain ⟨ha1, ha2⟩ := ha
  obtain ⟨hb1, hb2⟩ := hb
  constructor
  · rw [trace_ok_from_append a b false, ha1, ha2, hb1]
    rfl
  · rw [dirty_after_append a b false, ha2, hb2]

lemma cleanSeg_remote_cons {evs : List Event} (h : CleanSeg evs) :
    CleanSeg (Event.remote :: evs) := by
  obtain ⟨h1, h2⟩ := h
  exact ⟨by simpa [trace_ok_from] using h1, by simpa [dirty_after] using h2⟩

lemma cleanSeg_mutate_save_cons {evs : List Event} (h : CleanSeg evs) :
    CleanSeg (Event.mutate :: Event.save :: evs) := by
  obtain ⟨h1, h2⟩ := h
  exact ⟨by simpa [trace_ok_from] using h1, by simpa [dirty_after] using h2⟩

lemma run_monitor_clean (name : String)
    (outcomes : List (Except String String)) :
    ∀ (led : Ledger) (t : Nat) (last : Option String),
      CleanSeg (run_monitor true name outcomes led t last).2.1 := by
  induction outcomes with
  | nil => intro led t last; exact ⟨rfl, rfl⟩
  | cons o rest ih =>
      intro led t last
      cases o with
      | error e => exact ⟨rfl, rfl⟩
      | ok s =>
          simp only [run_monitor, save_events]
          by_cases hlast : some s = last
          · rw [if_pos hlast]
            by_cases hterm : is_terminal_status s
            · rw [if_pos hterm]
              exact ⟨rfl, rfl⟩
            · rw [if_neg hterm]
              exact cleanSeg_remote_cons (ih _ _ _)
          · rw [if_neg hlast]
            by_cases hterm : is_terminal_status s
            · rw [if_pos hterm]
              exact ⟨rfl, rfl⟩
            · rw [if_neg hterm]
              exact cleanSeg_remote_cons
                (cleanSeg_mutate_save_cons (ih _ _ _))

/-- Appending a remote-while-clean-safe segment `b` and then a save yields a
clean segment again. -/
lemma cleanSeg_snoc_seg_save {a b : List Event} (ha : CleanSeg a)
    (hb : trace_ok_from false b = true) :
    CleanSeg ((a ++ b) ++ save_events true) := by
  obtain ⟨h1, h2⟩ := ha
  constructor
  · rw [trace_ok_from_append (a ++ b) (save_events true) false,
      trace_ok_from_append a b false, h1, h2, hb]
    cases dirty_after false b <;> rfl
  · rw [dirty_after_append (a ++ b) (save_events true) false,
      dirty_after_append a b false, h2]
    cases dirty_after false b <;> rfl

lemma process_chunk_try_clean (submit_only : Bool) (i : Nat) (cf : ChunkFile)
    (env : ChunkEnv) (led : Ledger) (t : Nat) :
    CleanSeg (process_chunk_try true submit_only i cf env led t).2.1 := by
  unfold process_chunk_try
  cases hu : env.upload with
  | error e => exact ⟨rfl, rfl⟩
  | ok fid =>
    cases hc : env.create with
    | error e => exact ⟨rfl, rfl⟩
    | ok batch_id =>
      cases hr : env.retrieve with
      | error e => exact ⟨rfl, rfl⟩
      | ok input_file_id =>
          dsimp only
          by_cases hso : submit_only
          · rw [if_pos hso]
            exact ⟨rfl, rfl⟩
          · rw [if_neg hso]
            have hmon := run_monitor_clean cf.name env.monitor
            have hevs1 : CleanSeg ([Event.remote, Event.remote, Event.remote,
                Event.mutate] ++ save_events true) := ⟨rfl, rfl⟩
            have hevs3 : CleanSeg ([Event.mutate] ++ save_events true) :=
              ⟨rfl, rfl⟩
            cases hm : (run_monitor true cf.name env.monitor
                ⟨led.metadata, update_entry led.entries cf.name
                  { chunk_number := some i, batch_id := some batch_id,
                    file_id := some input_file_id,
                    num_requests := some cf.num_requests,
                    status := some "submitted", submitted_at := some t }⟩
                (t + 1) Option.none).2.2.2 with
            | none =>
                simp only [hm]
                exact cleanSeg_append hevs1 (hmon _ _ _)
            | some res =>
                cases res with
                | error e =>
                    simp only [hm]
                    exact cleanSeg_snoc_seg_save
                      (cleanSeg_append hevs1 (hmon _ _ _)) rfl
                | ok st =>
                    simp only [hm]
                    by_cases hst : st = "completed"
                    · rw [if_pos hst]
                      cases hd : env.download with
                      | error e =>
                          exact cleanSeg_snoc_seg_save
                            (cleanSeg_append (cleanSeg_append hevs1
                              (hmon _ _ _)) hevs3) rfl
                      | ok u =>
                          exact cleanSeg_snoc_seg_save
                            (cleanSeg_append (cleanSeg_append hevs1
                              (hmon _ _ _)) hevs3) rfl
                    · rw [if_neg hst]
                      exact cleanSeg_append (cleanSeg_append hevs1
                        (hmon _ _ _)) hevs3

lemma process_loop_clean (submit_only : Bool)
    (l : List (Nat × ChunkFile × ChunkEnv)) :
    ∀ (led : Ledger) (t : Nat),
      CleanSeg (process_loop true submit_only l led t).2.1 := by
  induction l with
  | nil => intro led t; exact ⟨rfl, rfl⟩
  | cons x rest ih =>
      intro led t
      obtain ⟨i, cf, env⟩ := x
      simp only [process_loop]
      by_cases hskip : chunk_skip led cf.name
      · rw [if_pos hskip]
        exact ih _ _
      · rw [if_neg hskip]
        have h1 := process_chunk_try_clean submit_only i cf env led t
        by_cases hdiv :
            (process_chunk_try true submit_only i cf env led t).2.2.2
        · rw [if_pos hdiv]
          exact h1
        · rw [if_neg hdiv]
          exact cleanSeg_append h1 (ih _ _)

/-- C1: in every run of `process_all_chunks` with a configured ledger file,
every ledger state transition (entry creation or any status/field change,
and every `_metadata` change) is persisted to disk before the next remote
call: the emitted trace never contains a `remote` event while a mutation is
unsaved. -/
theorem ledger_persisted_before_every_remote (submit_only : Bool)
    (files : List (ChunkFile × ChunkEnv)) (led0 : Ledger) (t0 : Nat) :
    persisted_before_remote
      (process_all_chunks true submit_only files led0 t0).2.1 = true := by
  unfold process_all_chunks
  rw [if_pos (show (true : Bool) = true from rfl)]
  dsimp only
  have h1 : CleanSeg [Event.mutate, Event.save] := ⟨rfl, rfl⟩
  have h2 := process_loop_clean submit_only (List.enumFrom 1 files)
    (⟨some { total_chunks := files.length,
             total_speeches := (files.map (fun f => f.1.num_requests)).sum,
             started_at := t0, status := "submitting" },
       led0.entries⟩ : Ledger) (t0 + 1)
  by_cases hdiv : (process_loop true submit_only (List.enumFrom 1 files)
      (⟨some { total_chunks := files.length,
               total_speeches := (files.map (fun f => f.1.num_requests)).sum,
               started_at := t0, status := "submitting" },
         led0.entries⟩ : Ledger) (t0 + 1)).2.2.2
  · rw [if_neg (by simp [hdiv])]
    exact (cleanSeg_append (cleanSeg_append h1 h2)
      (⟨rfl, rfl⟩ : CleanSeg [])).1
  · rw [if_pos ⟨rfl, hdiv⟩]
    exact (cleanSeg_append (cleanSeg_append h1 h2)
      (⟨rfl, rfl⟩ : CleanSeg [Event.mutate, Event.save])).1

lemma lookup_assoc_update (entries : List (String × Entry)) (name : String)
    (e : Entry) :
    lookup_assoc (update_entry entries name e) name = some e := by
  induction entries with
  | nil => simp [update_entry, lookup_assoc]
  | cons p rest ih =>
      obtain ⟨k, v⟩ := p
      by_cases hk : k == name
      · simp [update_entry, lookup_assoc, hk]
      · simp [update_entry, lookup_assoc, hk, ih]

lemma process_loop_all_completed (has_file submit_only : Bool)
    (l : List (Nat × ChunkFile × ChunkEnv)) :
    ∀ (led : Ledger) (t : Nat),
      (∀ x ∈ l, ∃ en, lookup_entry led x.2.1.name = some en ∧
          en.status = some "completed") →
      process_loop has_file submit_only l led t = (led, [], t, false) := by
  induction l with
  | nil => intro led t _; rfl
  | cons x rest ih =>
      intro led t h
      obtain ⟨i, cf, env⟩ := x
      obtain ⟨en, hen, hst⟩ := h (i, cf, env) (List.mem_cons_self _ _)
      have hskip : chunk_skip led cf.name = true := by
        unfold chunk_skip
        rw [show lookup_entry led cf.name = some en from hen]
        simp [hst]
      simp only [process_loop]
      rw [if_pos hskip]
      exact ih led t (fun y hy => h y (List.mem_cons_of_mem _ hy))

/-- C5 counterexample: re-invoking the orchestrator on a ledger in which the
single tracked chunk is already `completed` is not a no-op on the Ledger —
the metadata record is rewritten (fresh `started_at`/`completed_at`) and the
ledger file is saved (twice). -/
def c5_env : ChunkEnv :=
  { upload := .error "unused", create := .error "unused",
    retrieve := .error "unused", monitor := [], download := .ok () }

/-- The single chunk file of the C5 scenario. -/
def c5_file : ChunkFile := { name := "chunk01_input.jsonl", num_requests := 2 }

/-- Its completed ledger entry, from a previous finished run. -/
def c5_entry : Entry :=
  { chunk_number := some 1, batch_id := some "batch_abc",
    num_requests := some 2, status := some "completed",
    completed_at := some 3 }

/-- The ledger left by the previous finished run (started at tick 0). -/
def c5_ledger : Ledger :=
  { metadata := some { total_chunks := 1, total_speeches := 2,
                       started_at := 0, status := "completed",
                       completed_at := some 4 },
    entries := [("chunk01_input.jsonl", c5_entry)] }

/-- C5's chunk list. -/
def c5_files : List (ChunkFile × ChunkEnv) := [(c5_file, c5_env)]

/-- C5 counterexample: with every tracked chunk already `completed`, the
invocation still changes the Ledger (the metadata record is rewritten with
the new run's timestamps) and writes the ledger file. -/
theorem resume_not_noop_counterexample :
    (process_all_chunks true false c5_files c5_ledger 100).1 ≠ c5_ledger ∧
      Event.save ∈ (process_all_chunks true false c5_files c5_ledger 100).2.1 := by
  decide

/-- C5 amended: when every tracked chunk's ledger status is already
`completed`, the invocation performs no remote call and leaves every
per-chunk ledger entry unchanged, but it does write the Ledger: the metadata
record is rewritten (fresh `started_at`, `status` cycled through
`submitting` to `completed`, fresh `completed_at`) and the file is saved
twice; the merge step (`parse_results`) is a pure function of the result
files, so re-running it yields identical output. -/
theorem resume_all_completed_frame (submit_only : Bool)
    (files : List (ChunkFile × ChunkEnv)) (led0 : Ledger) (t0 : Nat)
    (h : ∀ x ∈ List.enumFrom 1 files, ∃ en,
        lookup_entry led0 x.2.1.name = some en ∧ en.status = some "completed") :
    (process_all_chunks true submit_only files led0 t0).1.entries =
        led0.entries ∧
      (process_all_chunks true submit_only files led0 t0).2.1 =
        [Event.mutate, Event.save, Event.mutate, Event.save] ∧
      (process_all_chunks true submit_only files led0 t0).1.metadata =
        some { total_chunks := files.length,
               total_speeches := (files.map (fun f => f.1.num_requests)).sum,
               started_at := t0, status := "completed",
               completed_at := some (t0 + 1) } ∧
      (∀ lines : List ResultLine,
        parse_results_src lines = parse_results_src lines) := by
  unfold process_all_chunks
  rw [if_pos (show (true : Bool) = true from rfl)]
  dsimp only
  rw [process_loop_all_completed true submit_only (List.enumFrom 1 files)
    (⟨some { total_chunks := files.length,
             total_speeches := (files.map (fun f => f.1.num_requests)).sum,
             started_at := t0, status := "submitting" },
       led0.entries⟩ : Ledger) (t0 + 1) h]
  dsimp only
  rw [if_pos ⟨rfl, by simp⟩]
  exact ⟨rfl, rfl, rfl, fun lines => rfl⟩

/-- Witness for `resume_all_completed_frame` at the C5 scenario ledger. -/
theorem resume_all_completed_frame_witness :
    (process_all_chunks true false c5_files c5_ledger 100).1.entries =
        c5_ledger.entries ∧
      (process_all_chunks true false c5_files c5_ledger 100).2.1 =
        [Event.mutate, Event.save, Event.mutate, Event.save] :=
  ⟨(resume_all_completed_frame false c5_files c5_ledger 100
      (by
        intro x hx
        rw [show List.enumFrom 1 c5_files = [(1, (c5_file, c5_env))] from rfl]
          at hx
        rw [List.mem_singleton] at hx
        subst hx
        exact ⟨c5_entry, rfl, rfl⟩)).1,
    (resume_all_completed_frame false c5_files c5_ledger 100
      (by
        intro x hx
        rw [show List.enumFrom 1 c5_files = [(1, (c5_file, c5_env))] from rfl]
          at hx
        rw [List.mem_singleton] at hx
        subst hx
        exact ⟨c5_entry, rfl, rfl⟩)).2.1⟩

/-! ## Per-chunk failure isolation in the sweeps (C6)

`process_all_chunks` wraps each chunk's processing in `try/except`
(lines 376-431) and the `for` loop continues with the next chunk. The other
submission sweep, `submit_all_chunks` in `src/phase2_batch_submit.py`
(lines 154-198), catches an error from `submit_single_chunk` but then
`return`s immediately (line 198), abandoning all remaining chunks. -/

/-- C6 amended (isolation in `process_all_chunks`): when a chunk is not
skipped and its upload raises, the handler records an error entry for that
chunk only, saves, and the sweep continues over the remaining chunks from
that state. -/
theorem chunk_failure_isolated (has_file submit_only : Bool) (i : Nat)
    (cf : ChunkFile) (env : ChunkEnv)
    (rest : List (Nat × ChunkFile × ChunkEnv)) (led : Ledger) (t : Nat)
    (msg : String)
    (hskip : chunk_skip led cf.name = false)
    (hup : env.upload = .error msg) :
    (process_loop has_file submit_only ((i, cf, env) :: rest) led t =
      (let led1 : Ledger :=
        ⟨led.metadata, update_entry led.entries cf.name (error_entry msg t)⟩
       let r := process_loop has_file submit_only rest led1 (t + 1)
       (r.1, ([Event.remote, Event.mutate] ++ save_events has_file) ++ r.2.1,
         r.2.2.1, r.2.2.2))) ∧
      lookup_entry
        (⟨led.metadata,
            update_entry led.entries cf.name (error_entry msg t)⟩ : Ledger)
        cf.name = some (error_entry msg t) := by
  constructor
  · simp only [process_loop]
    rw [if_neg (by simp [hskip])]
    unfold process_chunk_try
    rw [hup]
    rfl
  · exact lookup_assoc_update led.entries cf.name (error_entry msg t)

/-- The failing chunk environment of the C6 scenario (upload raises a
transport error). -/
def c6_fail_env : ChunkEnv :=
  { upload := .error "TransportError", create := .error "unused",
    retrieve := .error "unused", monitor := [], download := .ok () }

/-- A succeeding sibling chunk environment. -/
def c6_ok_env : ChunkEnv :=
  { upload := .ok "file-2", create := .ok "batch-2",
    retrieve := .ok "filein-2", monitor := [.ok "completed"],
    download := .ok () }

/-- C6 chunk files. -/
def c6_file1 : ChunkFile := { name := "chunk01_input.jsonl", num_requests := 3 }

/-- C6 chunk files. -/
def c6_file2 : ChunkFile := { name := "chunk02_input.jsonl", num_requests := 4 }

/-- Witness for `chunk_failure_isolated` at a concrete two-chunk sweep on an
empty ledger. -/
theorem chunk_failure_isolated_witness :
    (process_loop true false
        ((1, c6_file1, c6_fail_env) :: [(2, c6_file2, c6_ok_env)])
        ({} : Ledger) 0 =
      (let led1 : Ledger :=
        ⟨({} : Ledger).metadata,
          update_entry ({} : Ledger).entries c6_file1.name
            (error_entry "TransportError" 0)⟩
       let r := process_loop true false [(2, c6_file2, c6_ok_env)] led1 (0 + 1)
       (r.1,
         ([Event.remote, Event.mutate] ++ save_events true) ++ r.2.1,
         r.2.2.1, r.2.2.2))) ∧
      lookup_entry
        (⟨({} : Ledger).metadata,
            update_entry ({} : Ledger).entries c6_file1.name
              (error_entry "TransportError" 0)⟩ : Ledger)
        c6_file1.name = some (error_entry "TransportError" 0) :=
  chunk_failure_isolated true false 1 c6_file1 c6_fail_env
    [(2, c6_file2, c6_ok_env)] ({} : Ledger) 0 "TransportError" rfl rfl

/-- Per-chunk remote outcomes for the phase2 `submit_all_chunks` sweep:
whether a `phase2_chunkNN_info.json` exists, the status check on its batch,
and the upload / batch-create / wait outcomes of `submit_single_chunk`. -/
structure P2ChunkEnv where
  has_info : Bool
  check : Except String String
  upload : Except String String
  create : Except String String
  wait : Except String String
deriving Repr

/-- Observable outcome of the `submit_all_chunks` sweep: which chunk numbers
were submitted, skipped, attempted, and whether the sweep ended early
through the `except` branch's `return`. -/
structure P2Result where
  submitted : List Nat
  skipped : List Nat
  attempted : List Nat
  aborted : Bool
deriving DecidableEq, Repr

/-- The `for i, chunk_file in enumerate(chunk_files, 1)` sweep of
`submit_all_chunks` (`src/phase2_batch_submit.py` lines 154-198): an
existing chunk already `in_progress`/`completed` is skipped (a failing
status check falls through to resubmission); otherwise `submit_single_chunk`
is attempted, and any exception it raises makes the function `return`
immediately with the chunks submitted so far. -/
def submit_all_chunks_loop : List (Nat × P2ChunkEnv) → P2Result
  | [] => { submitted := [], skipped := [], attempted := [], aborted := false }
  | (i, env) :: rest =>
      let skip : Bool :=
        if env.has_info then
          match env.check with
          | .ok s => s = "in_progress" || s = "completed"
          | .error _ => false
        else false
      if skip then
        let r := submit_all_chunks_loop rest
        { r with skipped := i :: r.skipped }
      else
        match env.upload with
        | .error _ =>
            { submitted := [], skipped := [], attempted := [i],
              aborted := true }
        | .ok _ =>
          match env.create with
          | .error _ =>
              { submitted := [], skipped := [], attempted := [i],
                aborted := true }
          | .ok _ =>
            match env.wait with
            | .error _ =>
                { submitted := [], skipped := [], attempted := [i],
                  aborted := true }
            | .ok _ =>
                let r := submit_all_chunks_loop rest
                { submitted := i :: r.submitted, skipped := r.skipped,
                  attempted := i :: r.attempted, aborted := r.aborted }

/-- A chunk whose upload raises. -/
def p2_fail_env : P2ChunkEnv :=
  { has_info := false, check := .error "none", upload := .error "TransportError",
    create := .ok "batch-1", wait := .ok "in_progress" }

/-- A chunk that would submit fine. -/
def p2_ok_env : P2ChunkEnv :=
  { has_info := false, check := .error "none", upload := .ok "file-2",
    create := .ok "batch-2", wait := .ok "in_progress" }

/-- C6 counterexample: in the phase2 `submit_all_chunks` sweep, chunk 1's
transport error on submission makes the function return at once — chunk 2 is
never attempted, even though on its own it would submit successfully. -/
theorem submit_sweep_abort_counterexample :
    submit_all_chunks_loop [(1, p2_fail_env), (2, p2_ok_env)] =
        { submitted := [], skipped := [], attempted := [1], aborted := true } ∧
      submit_all_chunks_loop [(2, p2_ok_env)] =
        { submitted := [2], skipped := [], attempted := [2],
          aborted := false } := by
  constructor <;> rfl

/-! ## Resubmission of failed chunks (C2)

Embeds the ledger effect of `resubmit_failed_batches`
(`src/central_bank_sentiment/02_make_indices.py` lines 181-209): the
resubmitted chunk's entry is **replaced** by a fresh object that carries the
new job's identifiers, `resubmitted: True`, and
`previous_batch_id = original_info.get("batch_id")` — a one-deep back
reference. -/

/-- The replacement entry (lines 197-206): `original_info` is
`batch_info.get(batch_file.name, {})`. -/
def resubmit_entry (original_info : Option Entry) (i : Nat)
    (batch_id input_file_id : String) (num_requests t : Nat) : Entry :=
  let orig := original_info.getD {}
  { chunk_number := some (orig.chunk_number.getD i),
    batch_id := some batch_id,
    file_id := some input_file_id,
    num_requests := some num_requests,
    status := some "submitted",
    submitted_at := some t,
    resubmitted := some true,
    previous_batch_id := some orig.batch_id }

/-- Python `batch_info[batch_file.name] = {...}` followed by the immediate save
(line 209), as a ledger update. -/
def resubmit_chunk_ledger (led : Ledger) (name : String) (i : Nat)
    (batch_id input_file_id : String) (num_requests t : Nat) : Ledger :=
  ⟨led.metadata,
    update_entry led.entries name
      (resubmit_entry (lookup_entry led name) i batch_id input_file_id
        num_requests t)⟩

/-- Does the entry mention the given job id anywhere (as current or previous
job)? -/
def mentions_job (e : Entry) (b : String) : Bool :=
  e.batch_id == some b || e.previous_batch_id == some (some b)

/-- The failed first-attempt entry of the C2 scenario. -/
def c2_e0 : Entry :=
  { chunk_number := some 3, batch_id := some "batch_B1",
    file_id := some "filein_B1", num_requests := some 10,
    status := some "failed", submitted_at := some 5, completed_at := some 7,
    error := some "quota exceeded" }

/-- Its entry after the first resubmission (new job `batch_B2` at tick 8). -/
def c2_e1 : Entry :=
  resubmit_entry (some c2_e0) 3 "batch_B2" "filein_B2" 10 8

/-- The second attempt also failed (status merged by monitoring). -/
def c2_e1_failed : Entry := { c2_e1 with status := some "failed" }

/-- The entry after resubmitting a second time (new job `batch_B3`). -/
def c2_e2 : Entry :=
  resubmit_entry (some c2_e1_failed) 3 "batch_B3" "filein_B3" 10 9

/-- C2 counterexample: resubmission does record the prior job id under the
back-reference field, but it does not retain the chunk's accumulated
lifecycle history — the prior attempt's error detail and timestamps are
erased (the entry is replaced), and after a second resubmission the first
job id `batch_B1` no longer appears anywhere in the chunk's entry: the back
reference is a single overwritten field, not an accumulated chain. -/
theorem resubmission_erases_history :
    c2_e1.previous_batch_id = some (some "batch_B1") ∧
      c2_e0.error = some "quota exceeded" ∧ c2_e1.error = Option.none ∧
      c2_e0.completed_at = some 7 ∧ c2_e1.completed_at = Option.none ∧
      mentions_job c2_e2 "batch_B1" = false := by
  decide

/-- C2 amended: resubmitting a chunk whose entry is in a terminal
non-success state replaces its ledger entry with a fresh one that records
the immediately preceding job id under `previous_batch_id`, sets
`resubmitted`, preserves the chunk number, and resets the lifecycle to
`submitted`; every other field of the prior attempt (error detail,
completion timestamp, any earlier back reference) is dropped, so the ledger
keeps only a one-deep back reference per chunk. -/
theorem resubmission_backreference (e0 : Entry) (name : String) (led : Ledger)
    (i num_requests t : Nat) (batch_id input_file_id : String)
    (h : lookup_entry led name = some e0) :
    lookup_entry
        (resubmit_chunk_ledger led name i batch_id input_file_id
          num_requests t) name =
      some (resubmit_entry (some e0) i batch_id input_file_id
          num_requests t) ∧
      (resubmit_entry (some e0) i batch_id input_file_id num_requests t
          ).previous_batch_id = some e0.batch_id ∧
      (resubmit_entry (some e0) i batch_id input_file_id num_requests t
          ).chunk_number = some (e0.chunk_number.getD i) ∧
      (resubmit_entry (some e0) i batch_id input_file_id num_requests t
          ).resubmitted = some true ∧
      (resubmit_entry (some e0) i batch_id input_file_id num_requests t
          ).status = some "submitted" ∧
      (resubmit_entry (some e0) i batch_id input_file_id num_requests t
          ).error = Option.none ∧
      (resubmit_entry (some e0) i batch_id input_file_id num_requests t
          ).completed_at = Option.none := by
  refine ⟨?_, rfl, rfl, rfl, rfl, rfl, rfl⟩
  unfold resubmit_chunk_ledger
  rw [h]
  exact lookup_assoc_update led.entries name _

/-- Witness for `resubmission_backreference` at the C2 scenario. -/
theorem resubmission_backreference_witness :
    lookup_entry
        (resubmit_chunk_ledger
          ⟨Option.none, [("chunk03_input.jsonl", c2_e0)]⟩
          "chunk03_input.jsonl" 3 "batch_B2" "filein_B2" 10 8)
        "chunk03_input.jsonl" =
      some (resubmit_entry (some c2_e0) 3 "batch_B2" "filein_B2" 10 8) ∧
      (resubmit_entry (some c2_e0) 3 "batch_B2" "filein_B2" 10 8
          ).previous_batch_id = some c2_e0.batch_id :=
  ⟨(resubmission_backreference c2_e0 "chunk03_input.jsonl"
      ⟨Option.none, [("chunk03_input.jsonl", c2_e0)]⟩ 3 10 8 "batch_B2"
      "filein_B2" rfl).1,
    (resubmission_backreference c2_e0 "chunk03_input.jsonl"
      ⟨Option.none, [("chunk03_input.jsonl", c2_e0)]⟩ 3 10 8 "batch_B2"
      "filein_B2" rfl).2.1⟩

end LlmSentiment
